import Mathlib

/-!
Verification of the workflow execution engine of the Autonomous-Workflow-Agent
repository, via a shallow embedding of the Python sources
(`app/workflows/engine.py`, `app/workflows/state_store.py`,
`app/workflows/tasks/report_builder.py`, `app/workflows/tasks/sheets_writer.py`,
`app/workflows/models.py`) into Lean.

Modelling conventions:
* `datetime` values are abstracted to `Nat` ticks of a logical clock carried in
  the engine state; only whether a timestamp is set (`Option`) matters to the
  properties proved here.
* Python floats (confidence / urgency scores) are modelled as `ℚ`; the
  thresholds 0.7 and 0.4 become `7/10` and `4/10`.
* Python code that can raise is modelled with `Except String`; an external
  collaborator call is an oracle function supplied in an `Env` record, so each
  theorem quantifies over every possible collaborator behaviour.
* The SQLite state store is modelled as an in-memory record of run rows and
  step-log rows; its operations mirror `state_store.py` (catching their own
  errors and returning a `Bool`), with the `PRIMARY KEY` violation of
  `create_run` modelled explicitly.
-/

namespace AWA

/-! ## Data model (`app/workflows/models.py`) -/

/-- `WorkflowStatus` enum, models.py lines 27-32. -/
inductive WorkflowStatus where
  | pending
  | running
  | completed
  | failed
deriving DecidableEq, Repr

/-- `StepStatus` enum, models.py lines 35-41. -/
inductive StepStatus where
  | pending
  | running
  | completed
  | failed
  | skipped
deriving DecidableEq, Repr

/-- `EmailClassification`, models.py lines 44-48.  The `EmailCategory` enum is
carried as its string `value`, which is all the engine ever reads from it. -/
structure EmailClassification where
  category : String
  confidence : ℚ
  reasoning : String
deriving DecidableEq, Repr

/-- `SentimentAnalysis`, models.py lines 51-56.  The `Sentiment` enum is
carried as its string `value`. -/
structure SentimentAnalysis where
  sentiment : String
  urgency_score : ℚ
  requires_human : Bool
  confidence : ℚ
deriving DecidableEq, Repr

/-- `EmailData`, models.py lines 59-69.  The `date` field is carried as the
already-formatted string the engine would produce with `strftime`. -/
structure EmailData where
  message_id : String
  subject : String
  sender : String
  recipient : String
  date : String
  body : String
  snippet : String
  classification : Option EmailClassification := none
  sentiment : Option SentimentAnalysis := none
deriving DecidableEq, Repr

/-- `SheetRow`, models.py lines 77-87. -/
structure SheetRow where
  email_id : String
  subject : String
  sender : String
  date : String
  summary : String
  category : String := "general"
  sentiment : String := "neutral"
  urgency_score : ℚ := 0
  processed_at : String
deriving DecidableEq, Repr

/-- The `urgency_stats` dictionary built by `ReportBuilder.build_report`
(report_builder.py lines 150-154): the three fixed keys `"Important"`,
`"Needed Review"` and `"Take Your Time"` become the three fields. -/
structure UrgencyStats where
  important : Nat
  neededReview : Nat
  takeYourTime : Nat
deriving DecidableEq, Repr

/-- `ReportData`, models.py lines 90-98 (`generated_at` abstracted to a clock
tick). -/
structure ReportData where
  title : String
  summary : String
  insights : List String
  urgency_stats : UrgencyStats
  priority_emails : List String
  email_count : Nat
  generated_at : Nat
deriving DecidableEq, Repr

/-- `StepLog`, models.py lines 106-114.  The `metadata` mapping is omitted:
the engine never writes anything into it (it is always the empty dict on every
path modelled here). -/
structure StepLog where
  step_name : String
  status : StepStatus
  started_at : Option Nat := none
  completed_at : Option Nat := none
  error_message : Option String := none
  retry_count : Nat := 0
deriving DecidableEq, Repr

/-- `WorkflowRun`, models.py lines 122-131.  The in-memory `steps` list is
omitted: the engine never appends to `run.steps`; step logs live only in the
state store (`step_logs` table). -/
structure WorkflowRun where
  run_id : String
  status : WorkflowStatus
  started_at : Nat
  completed_at : Option Nat := none
  error_message : Option String := none
  emails_processed : Nat := 0
  report_path : Option String := none
deriving DecidableEq, Repr

/-! ## State store (`app/workflows/state_store.py`) -/

/-- The two SQLite tables of `state_store.py`: `workflow_runs` rows (keyed by
`run_id`, a `TEXT PRIMARY KEY`) and `step_logs` rows (append-only, ordered by
their auto-increment id, each holding its `run_id` foreign key). -/
structure StoreState where
  runs : List WorkflowRun := []
  step_logs : List (String × StepLog) := []
deriving DecidableEq, Repr

/-- The keyword arguments of `StateStore.update_run` (state_store.py lines
136-172): each field is `none` when the keyword is absent from the call.
`report_path` can be explicitly set to NULL (`some none`), which is what the
engine's completed-path update does when no report was saved. -/
structure RunUpdate where
  status : Option WorkflowStatus := none
  error_message : Option String := none
  completed_at : Option Nat := none
  emails_processed : Option Nat := none
  report_path : Option (Option String) := none
deriving DecidableEq, Repr

/-- Effect of one SQL `UPDATE workflow_runs SET ... WHERE run_id = ?` row
update on a single row (state_store.py lines 149-164): only the fields named
in the kwargs change. -/
def applyRunUpdate (r : WorkflowRun) (u : RunUpdate) : WorkflowRun :=
  { r with
    status := u.status.getD r.status
    error_message := match u.error_message with
      | some e => some e
      | none => r.error_message
    completed_at := match u.completed_at with
      | some t => some t
      | none => r.completed_at
    emails_processed := u.emails_processed.getD r.emails_processed
    report_path := u.report_path.getD r.report_path }

/-- `StateStore.create_run`, state_store.py lines 100-134: `INSERT` of one
row; the `TEXT PRIMARY KEY` on `run_id` makes the insert of a duplicate
identifier raise, which the method catches and converts to `False` (leaving
the table unchanged, since the transaction is never committed). -/
def StoreState.create_run (s : StoreState) (run : WorkflowRun) : Bool × StoreState :=
  if s.runs.any (fun rec => rec.run_id = run.run_id) then (false, s)
  else (true, { s with runs := s.runs ++ [run] })

/-- `StateStore.update_run`, state_store.py lines 136-172: partial update by
field name of every row matching `run_id` (at most one, by the primary key);
returns `True` even when no row matches, because the `UPDATE` statement itself
succeeds. -/
def StoreState.update_run (s : StoreState) (rid : String) (u : RunUpdate) : Bool × StoreState :=
  (true, { s with runs := s.runs.map (fun r => if r.run_id = rid then applyRunUpdate r u else r) })

/-- `StateStore.add_step_log`, state_store.py lines 272-307: insert-only
append of one step-log row. -/
def StoreState.add_step_log (s : StoreState) (rid : String) (log : StepLog) : Bool × StoreState :=
  (true, { s with step_logs := s.step_logs ++ [(rid, log)] })

/-! ## Engine state and collaborator environment -/

/-- The mutable world the engine touches: the state store, a logical clock
(each `datetime.now()` call reads the clock and advances it), the trace of
`time.sleep` durations performed by the retry executor, and the analytics
cache entries recorded (engine.py lines 145-157). -/
structure EngState where
  store : StoreState := {}
  clock : Nat := 0
  sleeps : List ℚ := []
  analytics : List String := []
deriving DecidableEq, Repr

/-- One `datetime.now()` call: read the clock, advance it. -/
def tick (st : EngState) : EngState :=
  { st with clock := st.clock + 1 }

/-- `self.state_store.add_step_log(run_id, step_log)` as seen from the
engine. -/
def addLog (rid : String) (log : StepLog) (st : EngState) : EngState :=
  { st with store := (StoreState.add_step_log st.store rid log).2 }

/-- The external collaborators of one `execute_workflow` call, as oracles.
`fetchStep`, `writeStep` and `reportStep` take the call arguments plus the
retry-attempt index and either return a value (`Except.ok`) or raise
(`Except.error message`).  `saveReport` models
`ReportBuilder.save_report` (a direct call at engine.py line 185, outside any
retry boundary and any local handler), and `cacheResult` models
`AnalyticsStore.cache_classification` (engine.py lines 149-155).  `run_id`
is the freshly allocated `uuid4` string, and `maxRetries` / `retryDelay` are
`settings.workflow_max_retries` / `settings.workflow_retry_delay_seconds`. -/
structure Env where
  run_id : String
  maxRetries : Nat
  retryDelay : ℚ
  fetchStep : Nat → Nat → Except String (List EmailData)
  writeStep : List SheetRow → Nat → Except String Nat
  reportStep : List EmailData → Nat → Except String ReportData
  saveReport : ReportData → Except String String
  cacheResult : String → Except String Unit

/-! ## Retry executor (`WorkflowEngine._execute_step_with_retry`,
engine.py lines 35-93) -/

/-- The retry loop `for attempt in range(max_retries + 1)` of
`_execute_step_with_retry` (engine.py lines 59-91), encoded with `left` =
`max_retries - attempt` remaining additional attempts, so that the source's
`attempt < max_retries` guard is exactly `left > 0`.

Each attempt calls `datetime.now()` once when the `StepLog` is constructed
(line 63).  On success (lines 71-76) or on final exhaustion (lines 85-91) a
second `now()` stamps `completed_at` and the single terminal `StepLog` is
persisted; on a non-final exception the loop sleeps `retry_delay` seconds
(line 84) and retries without persisting anything. -/
def retryGo {α : Type} (delay : ℚ) (rid sname : String) (step : Nat → Except String α) :
    Nat → Nat → EngState → (Bool × Option α × Option String) × EngState
  | 0, attempt, st =>
    let t0 := st.clock
    let st1 := tick st
    match step attempt with
    | Except.ok v =>
        let t1 := st1.clock
        let st2 := tick st1
        let log : StepLog :=
          { step_name := sname, status := StepStatus.completed,
            started_at := some t0, completed_at := some t1,
            error_message := none, retry_count := attempt }
        ((true, some v, none), addLog rid log st2)
    | Except.error e =>
        let t1 := st1.clock
        let st2 := tick st1
        let log : StepLog :=
          { step_name := sname, status := StepStatus.failed,
            started_at := some t0, completed_at := some t1,
            error_message := some e, retry_count := attempt }
        ((false, none, some e), addLog rid log st2)
  | Nat.succ left, attempt, st =>
    let t0 := st.clock
    let st1 := tick st
    match step attempt with
    | Except.ok v =>
        let t1 := st1.clock
        let st2 := tick st1
        let log : StepLog :=
          { step_name := sname, status := StepStatus.completed,
            started_at := some t0, completed_at := some t1,
            error_message := none, retry_count := attempt }
        ((true, some v, none), addLog rid log st2)
    | Except.error _ =>
        retryGo delay rid sname step left (attempt + 1)
          { st1 with sleeps := st1.sleeps ++ [delay] }

/-- `WorkflowEngine._execute_step_with_retry` (engine.py lines 35-93):
returns the `(success, result, error_message)` triple together with the
updated world. -/
def execute_step_with_retry {α : Type} (maxRetries : Nat) (delay : ℚ) (rid sname : String)
    (step : Nat → Except String α) (st : EngState) :
    (Bool × Option α × Option String) × EngState :=
  retryGo delay rid sname step maxRetries 0 st

/-! ## Row derivation and classification caching (engine.py lines 145-157 and
218-254) -/

/-- The classification-caching loop (engine.py lines 145-157): for each email
carrying both a classification and a sentiment, `cache_classification` is
invoked; its call is wrapped in a per-item `try/except` that only logs a
warning, so a raising cache never escapes.  A successful call is recorded in
the analytics trace. -/
def cacheClassifications (env : Env) (emails : List EmailData) (st : EngState) : EngState :=
  emails.foldl
    (fun st email =>
      match email.classification, email.sentiment with
      | some _, some _ =>
          match env.cacheResult email.message_id with
          | Except.ok _ => { st with analytics := st.analytics ++ [email.message_id] }
          | Except.error _ => st
      | _, _ => st)
    st

/-- `WorkflowEngine._prepare_sheet_rows` (engine.py lines 218-254): one
`SheetRow` per email, defaulting `category` to `"general"` and
`sentiment`/`urgency_score` to `"neutral"`/`0.0` when the corresponding
analysis is absent, truncating the snippet to 200 characters.  The per-row
`datetime.now()` values are abstracted to the single loop-entry clock value
rendered as a string. -/
def prepare_sheet_rows (emails : List EmailData) (now : Nat) : List SheetRow :=
  emails.map (fun email =>
    let category := match email.classification with
      | some c => c.category
      | none => "general"
    let sentimentLabel := match email.sentiment with
      | some s => s.sentiment
      | none => "neutral"
    let urgency : ℚ := match email.sentiment with
      | some s => s.urgency_score
      | none => 0
    { email_id := email.message_id
      subject := email.subject
      sender := email.sender
      date := email.date
      summary := email.snippet.take 200
      category := category
      sentiment := sentimentLabel
      urgency_score := urgency
      processed_at := toString now })

/-! ## Workflow engine (`WorkflowEngine.execute_workflow`,
engine.py lines 95-216) -/

/-- Stage 1 invocation (engine.py lines 123-128): the fetch step run through
the retry executor. -/
def fetchPhase (env : Env) (max_emails : Nat) (st : EngState) :
    (Bool × Option (List EmailData) × Option String) × EngState :=
  execute_step_with_retry env.maxRetries env.retryDelay env.run_id "fetch_emails"
    (env.fetchStep max_emails) st

/-- Stage 2 invocation (engine.py lines 161-166): the write step run through
the retry executor. -/
def writePhase (env : Env) (rows : List SheetRow) (st : EngState) :
    (Bool × Option Nat × Option String) × EngState :=
  execute_step_with_retry env.maxRetries env.retryDelay env.run_id "write_to_sheets"
    (env.writeStep rows) st

/-- Stage 3 invocation (engine.py lines 176-181): the report step run through
the retry executor. -/
def reportPhase (env : Env) (emails : List EmailData) (st : EngState) :
    (Bool × Option ReportData × Option String) × EngState :=
  execute_step_with_retry env.maxRetries env.retryDelay env.run_id "generate_report"
    (env.reportStep emails) st

/-- The `run.status = COMPLETED` terminal block (engine.py lines 191-203):
stamp `completed_at`, persist the terminal update (`status`, `completed_at`,
`emails_processed`, `report_path`) and return the run. -/
def completeRun (env : Env) (run : WorkflowRun) (st : EngState) :
    Except (String × WorkflowRun) WorkflowRun × EngState :=
  let t := st.clock
  let st := tick st
  let run := { run with status := WorkflowStatus.completed, completed_at := some t }
  let store := (StoreState.update_run st.store env.run_id
    { status := some WorkflowStatus.completed, completed_at := some t,
      emails_processed := some run.emails_processed,
      report_path := some run.report_path }).2
  (Except.ok run, { st with store := store })

/-- Stage 3 and the terminal block (engine.py lines 174-203).  When the
report step succeeds, `save_report` is called directly (line 185, outside the
retry executor): if it raises, the exception propagates to the top-level
handler, which is modelled by returning `Except.error` carrying the message
and the in-flight `run` object.  A failed report step is only logged (line
189) and the run still completes. -/
def stage3 (env : Env) (generate_report : Bool) (run : WorkflowRun)
    (emails : List EmailData) (st : EngState) :
    Except (String × WorkflowRun) WorkflowRun × EngState :=
  if generate_report then
    let rr := reportPhase env emails st
    let st := rr.2
    match rr.1.1, rr.1.2.1 with
    | true, some rd =>
        match env.saveReport rd with
        | Except.ok path => completeRun env { run with report_path := some path } st
        | Except.error e => (Except.error (e, run), st)
    | _, _ => completeRun env run st
  else completeRun env run st

/-- The body of the `try:` block of `execute_workflow` (engine.py lines
121-203).  Stage 1 failure or an empty fetch result aborts the run with
status `failed` and message `error or "No emails fetched"` (the Python `or`
also replaces an empty-string exception text); otherwise the pipeline caches
classifications, derives the sheet rows, runs the write step (whose failure
is only logged, lines 168-172) and proceeds to stage 3. -/
def workflowTry (env : Env) (max_emails : Nat) (generate_report : Bool)
    (run : WorkflowRun) (st : EngState) :
    Except (String × WorkflowRun) WorkflowRun × EngState :=
  let fr := fetchPhase env max_emails st
  let success := fr.1.1
  let emails := (fr.1.2.1).getD []
  let error := fr.1.2.2
  let st := fr.2
  if (!success || emails.isEmpty) = true then
    let msg := match error with
      | some e => if e = "" then "No emails fetched" else e
      | none => "No emails fetched"
    let t := st.clock
    let st := tick st
    let run := { run with
      status := WorkflowStatus.failed,
      error_message := some msg, completed_at := some t }
    let store := (StoreState.update_run st.store env.run_id
      { status := some WorkflowStatus.failed, error_message := some msg,
        completed_at := some t }).2
    (Except.ok run, { st with store := store })
  else
    let run := { run with emails_processed := emails.length }
    let st := cacheClassifications env emails st
    let sheet_rows := prepare_sheet_rows emails st.clock
    let wr := writePhase env sheet_rows st
    let st := wr.2
    stage3 env generate_report run emails st

/-- The `try/except` of `execute_workflow` (engine.py lines 121-216): an
exception escaping the body is caught at the top level, which forces status
`failed`, records the exception text as `error_message`, stamps
`completed_at`, persists the terminal update and still returns the run. -/
def workflowBody (env : Env) (max_emails : Nat) (generate_report : Bool)
    (run : WorkflowRun) (st : EngState) : WorkflowRun × EngState :=
  match workflowTry env max_emails generate_report run st with
  | (Except.ok r, st) => (r, st)
  | (Except.error (e, runAtRaise), st) =>
      let t := st.clock
      let st := tick st
      let r := { runAtRaise with
        status := WorkflowStatus.failed,
        error_message := some e, completed_at := some t }
      let store := (StoreState.update_run st.store env.run_id
        { status := some WorkflowStatus.failed, error_message := some e,
          completed_at := some t }).2
      (r, { st with store := store })

/-- Run creation (engine.py lines 110-116): a fresh `WorkflowRun` with status
`running`, `started_at` = `datetime.now()`, and all optional fields unset. -/
def initialRun (env : Env) (st : EngState) : WorkflowRun × EngState :=
  ({ run_id := env.run_id, status := WorkflowStatus.running, started_at := st.clock },
   tick st)

/-- The engine state right after `self.state_store.create_run(run)`
(engine.py line 118).  The boolean result of `create_run` is discarded, just
as the source discards it. -/
def stAfterCreate (env : Env) (st : EngState) : EngState :=
  let ir := initialRun env st
  { ir.2 with store := (StoreState.create_run ir.2.store ir.1).2 }

/-- `WorkflowEngine.execute_workflow` (engine.py lines 95-216). -/
def execute_workflow (env : Env) (max_emails : Nat) (generate_report : Bool)
    (st : EngState) : WorkflowRun × EngState :=
  workflowBody env max_emails generate_report (initialRun env st).1 (stAfterCreate env st)

/-- The stage-1 abort condition `if not success or not emails:` (engine.py
line 130), evaluated on the fetch outcome of a run started from `st`. -/
def stage1Aborts (env : Env) (max_emails : Nat) (st : EngState) : Bool :=
  let fr := fetchPhase env max_emails (stAfterCreate env st)
  !fr.1.1 || ((fr.1.2.1).getD []).isEmpty

/-- The stage-1 abort message `error or "No emails fetched"` (engine.py line
132) of a run started from `st`. -/
def stage1Msg (env : Env) (max_emails : Nat) (st : EngState) : String :=
  let fr := fetchPhase env max_emails (stAfterCreate env st)
  match fr.1.2.2 with
  | some e => if e = "" then "No emails fetched" else e
  | none => "No emails fetched"

/-! ## Report builder (`ReportBuilder.build_report`,
report_builder.py lines 133-186) -/

/-- One iteration of the urgency-stats loop (report_builder.py lines
157-166): an email is bucketed only when it carries a sentiment result;
score `>= 0.7` counts as `"Important"` (and queues a priority line),
otherwise score `>= 0.4` counts as `"Needed Review"`, otherwise
`"Take Your Time"`. -/
def bucketStep (acc : UrgencyStats × List String) (email : EmailData) :
    UrgencyStats × List String :=
  match email.sentiment with
  | some s =>
      if (7 : ℚ)/10 ≤ s.urgency_score then
        ({ acc.1 with important := acc.1.important + 1 },
         acc.2 ++ ["**" ++ email.sender ++ "**: " ++ email.subject])
      else if (4 : ℚ)/10 ≤ s.urgency_score then
        ({ acc.1 with neededReview := acc.1.neededReview + 1 }, acc.2)
      else
        ({ acc.1 with takeYourTime := acc.1.takeYourTime + 1 }, acc.2)
  | none => acc

/-- The urgency-stats loop of `build_report` (report_builder.py lines
150-166), started from the all-zero dictionary and the empty priority
list. -/
def buildUrgencyStats (emails : List EmailData) : UrgencyStats × List String :=
  emails.foldl bucketStep (⟨0, 0, 0⟩, [])

/-- `ReportBuilder.build_report` (report_builder.py lines 133-186).  The two
OpenAI-backed helpers `_generate_summary` and `_extract_insights` are the AI
collaborator (spec section 6) and enter as oracles `summarize` and
`extract_insights`; `generated_at` is the clock value `now`. -/
def build_report (summarize : List EmailData → String)
    (extract_insights : List EmailData → List String)
    (emails : List EmailData) (title : String) (now : Nat) : ReportData :=
  let stats := buildUrgencyStats emails
  { title := title
    summary := summarize emails
    insights := extract_insights emails
    urgency_stats := stats.1
    priority_emails := stats.2
    email_count := emails.length
    generated_at := now }

/-- Does the email carry a sentiment with urgency score at or above the 0.7
threshold? -/
def isHigh (e : EmailData) : Bool :=
  match e.sentiment with
  | some s => decide ((7 : ℚ)/10 ≤ s.urgency_score)
  | none => false

/-- Does the email carry a sentiment with urgency score in [0.4, 0.7)? -/
def isMedium (e : EmailData) : Bool :=
  match e.sentiment with
  | some s => decide (¬ (7 : ℚ)/10 ≤ s.urgency_score ∧ (4 : ℚ)/10 ≤ s.urgency_score)
  | none => false

/-- Does the email carry a sentiment with urgency score below the 0.4
threshold? -/
def isLow (e : EmailData) : Bool :=
  match e.sentiment with
  | some s => decide (s.urgency_score < (4 : ℚ)/10)
  | none => false

/-! ## Sheets writer (`SheetsWriter`, sheets_writer.py).  The spreadsheet
destination is modelled as the list of its rows, each row a list of cell
strings (column A is the first element).  The vendor API calls (`values().get`,
`values().update`, `values().append`) are thin wrappers (spec section 1) and
are modelled as operating on that state and succeeding; the source's
`HttpError` branches return 0 without writing. -/

/-- A sheet: a list of rows, each a list of cells (column A first). -/
abbrev Sheet := List (List String)

/-- The header row added by `_ensure_headers` (sheets_writer.py lines
83-86). -/
def sheetHeaders : List String :=
  ["Email ID", "Subject", "Sender", "Date", "Summary",
   "Category", "Sentiment", "Urgency Score", "Processed At"]

/-- `SheetsWriter._get_existing_email_ids` (sheets_writer.py lines 30-57):
the set of column-A values of every non-empty row after the first (the first
row is skipped as the header row). -/
def get_existing_email_ids (sheet : Sheet) : List String :=
  (sheet.drop 1).filterMap (fun row => row.head?)

/-- `SheetsWriter._ensure_headers` (sheets_writer.py lines 59-99): when the
sheet has no values the header row is written; otherwise it is left alone. -/
def ensure_headers (sheet : Sheet) : Sheet :=
  if sheet.isEmpty then [sheetHeaders] else sheet

/-- The urgency text label written to the sheet (sheets_writer.py lines
141-147). -/
def urgencyLabel (score : ℚ) : String :=
  if (7 : ℚ)/10 ≤ score then "Important"
  else if (4 : ℚ)/10 ≤ score then "Needed Review"
  else "Take Your Time"

/-- The cell values of one appended row (sheets_writer.py lines 149-159). -/
def rowToValues (row : SheetRow) : List String :=
  [row.email_id, row.subject, row.sender, row.date, row.summary,
   row.category, row.sentiment, urgencyLabel row.urgency_score, row.processed_at]

/-- `SheetsWriter.write_rows` (sheets_writer.py lines 101-179): empty input
returns 0 untouched; otherwise headers are ensured, the pre-existing email
ids are read, rows whose `email_id` is already present are filtered out, and
only the remaining rows are appended; the returned count is the number of
rows actually appended (the API's `updatedRows`). -/
def write_rows (sheet : Sheet) (rows : List SheetRow) : Sheet × Nat :=
  if rows.isEmpty then (sheet, 0)
  else
    let sheet := ensure_headers sheet
    let existing_ids := get_existing_email_ids sheet
    let new_rows := rows.filter (fun row => !decide (row.email_id ∈ existing_ids))
    if new_rows.isEmpty then (sheet, 0)
    else
      let values := new_rows.map rowToValues
      (sheet ++ values, values.length)

/-! ## The WorkflowRun invariant (spec section 3) -/

/-- The `WorkflowRun` invariant of spec section 3: the status is one of the
four defined values, `completed_at` is set exactly when the status is
terminal, and `error_message` is set only when the status is `failed`. -/
def runInvariant (r : WorkflowRun) : Prop :=
  (r.status = WorkflowStatus.pending ∨ r.status = WorkflowStatus.running ∨
   r.status = WorkflowStatus.completed ∨ r.status = WorkflowStatus.failed) ∧
  (r.completed_at.isSome = true ↔
   (r.status = WorkflowStatus.completed ∨ r.status = WorkflowStatus.failed)) ∧
  (r.error_message.isSome = true → r.status = WorkflowStatus.failed)

/-! ## Lemmas about the retry executor -/

/-- Frame property of the retry loop: every invocation persists exactly one
step log, carrying the invocation's step name, and touches neither the run
table, the analytics trace, nor anything else in the store; the result triple
is `(True, result, None)` with a `completed` log, or `(False, None, error)`
with a `failed` log recording that error. -/
theorem retryGo_spec {α : Type} (delay : ℚ) (rid sname : String) (step : Nat → Except String α) :
    ∀ (left attempt : Nat) (st : EngState) (res : Bool × Option α × Option String)
      (st' : EngState),
      retryGo delay rid sname step left attempt st = (res, st') →
      ∃ log : StepLog,
        st'.store.step_logs = st.store.step_logs ++ [(rid, log)] ∧
        st'.store.runs = st.store.runs ∧
        st'.analytics = st.analytics ∧
        log.step_name = sname ∧
        ((∃ v, res = (true, some v, none) ∧ log.status = StepStatus.completed) ∨
         (∃ e, res = (false, none, some e) ∧ log.status = StepStatus.failed ∧
           log.error_message = some e)) := by
  intro left
  induction left with
  | zero =>
    intro attempt st res st' h
    cases hstep : step attempt with
    | ok v =>
      simp only [retryGo, hstep, addLog, StoreState.add_step_log, tick] at h
      rw [Prod.mk.injEq] at h
      obtain ⟨hres, hst⟩ := h
      subst hres; subst hst
      exact ⟨_, rfl, rfl, rfl, rfl, Or.inl ⟨v, rfl, rfl⟩⟩
    | error e =>
      simp only [retryGo, hstep, addLog, StoreState.add_step_log, tick] at h
      rw [Prod.mk.injEq] at h
      obtain ⟨hres, hst⟩ := h
      subst hres; subst hst
      exact ⟨_, rfl, rfl, rfl, rfl, Or.inr ⟨e, rfl, rfl, rfl⟩⟩
  | succ l ih =>
    intro attempt st res st' h
    cases hstep : step attempt with
    | ok v =>
      simp only [retryGo, hstep, addLog, StoreState.add_step_log, tick] at h
      rw [Prod.mk.injEq] at h
      obtain ⟨hres, hst⟩ := h
      subst hres; subst hst
      exact ⟨_, rfl, rfl, rfl, rfl, Or.inl ⟨v, rfl, rfl⟩⟩
    | error e =>
      simp only [retryGo, hstep, tick] at h
      simpa using ih (attempt + 1)
        { st with clock := st.clock + 1, sleeps := st.sleeps ++ [delay] } res st' h

/-- Exhaustion behaviour of the retry loop: when every attempt raises, the
loop returns `(False, None, last message)`, persists exactly one `failed`
step log whose `retry_count` is the index of the last attempt, and sleeps the
fixed delay once per retry. -/
theorem retryGo_all_fail {α : Type} (delay : ℚ) (rid sname : String)
    (step : Nat → Except String α) (errs : Nat → String) :
    ∀ (left attempt : Nat) (st : EngState) (res : Bool × Option α × Option String)
      (st' : EngState),
      (∀ j, j ≤ left → step (attempt + j) = Except.error (errs (attempt + j))) →
      retryGo delay rid sname step left attempt st = (res, st') →
      res = (false, none, some (errs (attempt + left))) ∧
      (∃ t1 t2 : Option Nat,
        st'.store.step_logs = st.store.step_logs ++
          [(rid, { step_name := sname, status := StepStatus.failed,
                   started_at := t1, completed_at := t2,
                   error_message := some (errs (attempt + left)),
                   retry_count := attempt + left })]) ∧
      st'.store.runs = st.store.runs ∧
      st'.sleeps = st.sleeps ++ List.replicate left delay ∧
      st'.analytics = st.analytics := by
  intro left
  induction left with
  | zero =>
    intro attempt st res st' hfail h
    have hstep : step attempt = Except.error (errs attempt) := by
      simpa using hfail 0 (Nat.le_refl 0)
    simp only [retryGo, hstep, addLog, StoreState.add_step_log, tick] at h
    rw [Prod.mk.injEq] at h
    obtain ⟨hres, hst⟩ := h
    subst hres; subst hst
    refine ⟨by simp, ⟨some st.clock, some (st.clock + 1), by simp⟩, by simp, by simp, by simp⟩
  | succ l ih =>
    intro attempt st res st' hfail h
    have hstep : step attempt = Except.error (errs attempt) := by
      simpa using hfail 0 (Nat.zero_le _)
    simp only [retryGo, hstep, tick] at h
    have hfail' : ∀ j, j ≤ l →
        step (attempt + 1 + j) = Except.error (errs (attempt + 1 + j)) := by
      intro j hj
      have e1 : attempt + 1 + j = attempt + (j + 1) := by omega
      rw [e1]
      exact hfail (j + 1) (by omega)
    obtain ⟨h1, ⟨t1, t2, h2⟩, h3, h4, h5⟩ := ih (attempt + 1)
      { st with clock := st.clock + 1, sleeps := st.sleeps ++ [delay] } res st' hfail' h
    have e2 : attempt + 1 + l = attempt + (l + 1) := by omega
    rw [e2] at h1 h2
    refine ⟨h1, ⟨t1, t2, by simpa using h2⟩, by simpa using h3, ?_, by simpa using h5⟩
    simpa [List.replicate_succ, List.append_assoc] using h4

/-- Success behaviour of the retry loop: when the first `k` attempts raise
and attempt `k` succeeds within the retry budget, the loop returns
`(True, value, None)`, persists exactly one `completed` step log whose
`retry_count` is `k`, and has slept once per failed attempt. -/
theorem retryGo_success_after {α : Type} (delay : ℚ) (rid sname : String)
    (step : Nat → Except String α) (errs : Nat → String) (v : α) :
    ∀ (k left attempt : Nat) (st : EngState) (res : Bool × Option α × Option String)
      (st' : EngState),
      k ≤ left →
      (∀ j, j < k → step (attempt + j) = Except.error (errs (attempt + j))) →
      step (attempt + k) = Except.ok v →
      retryGo delay rid sname step left attempt st = (res, st') →
      res = (true, some v, none) ∧
      (∃ t1 t2 : Option Nat,
        st'.store.step_logs = st.store.step_logs ++
          [(rid, { step_name := sname, status := StepStatus.completed,
                   started_at := t1, completed_at := t2,
                   error_message := none, retry_count := attempt + k })]) ∧
      st'.store.runs = st.store.runs ∧
      st'.sleeps = st.sleeps ++ List.replicate k delay ∧
      st'.analytics = st.analytics := by
  intro k
  induction k with
  | zero =>
    intro left attempt st res st' _ _ hok h
    rw [Nat.add_zero] at hok
    cases left with
    | zero =>
      simp only [retryGo, hok, addLog, StoreState.add_step_log, tick] at h
      rw [Prod.mk.injEq] at h
      obtain ⟨hres, hst⟩ := h
      subst hres; subst hst
      refine ⟨rfl, ⟨some st.clock, some (st.clock + 1), by simp⟩, by simp, by simp, by simp⟩
    | succ l =>
      simp only [retryGo, hok, addLog, StoreState.add_step_log, tick] at h
      rw [Prod.mk.injEq] at h
      obtain ⟨hres, hst⟩ := h
      subst hres; subst hst
      refine ⟨rfl, ⟨some st.clock, some (st.clock + 1), by simp⟩, by simp, by simp, by simp⟩
  | succ m ih =>
    intro left attempt st res st' hk hfail hok h
    have hstep : step attempt = Except.error (errs attempt) := by
      simpa using hfail 0 (Nat.succ_pos m)
    cases left with
    | zero => omega
    | succ l =>
      simp only [retryGo, hstep, tick] at h
      have hfail' : ∀ j, j < m →
          step (attempt + 1 + j) = Except.error (errs (attempt + 1 + j)) := by
        intro j hj
        have e1 : attempt + 1 + j = attempt + (j + 1) := by omega
        rw [e1]
        exact hfail (j + 1) (by omega)
      have hok' : step (attempt + 1 + m) = Except.ok v := by
        have e1 : attempt + 1 + m = attempt + (m + 1) := by omega
        rw [e1]; exact hok
      obtain ⟨h1, ⟨t1, t2, h2⟩, h3, h4, h5⟩ := ih l (attempt + 1)
        { st with clock := st.clock + 1, sleeps := st.sleeps ++ [delay] } res st'
        (by omega) hfail' hok' h
      have e2 : attempt + 1 + m = attempt + (m + 1) := by omega
      rw [e2] at h2
      refine ⟨h1, ⟨t1, t2, by simpa using h2⟩, by simpa using h3, ?_, by simpa using h5⟩
      simpa [List.replicate_succ, List.append_assoc] using h4

/-- C4: for a step operation that raises on every attempt, with
`max_retries = R`, `_execute_step_with_retry` persists exactly one `StepLog`
(status `failed`, `retry_count = R`, `error_message` = the message of the
last exception), returns `(False, None, last error message)`, and sleeps
exactly `R` times for `retry_delay_seconds` each — so the total elapsed time
is at least `R × retry_delay_seconds`. -/
theorem retry_executor_exhaustion {α : Type} (R : Nat) (delay : ℚ) (rid sname : String)
    (step : Nat → Except String α) (errs : Nat → String) (st : EngState)
    (h : ∀ i, i ≤ R → step i = Except.error (errs i)) :
    (execute_step_with_retry R delay rid sname step st).1 = (false, none, some (errs R)) ∧
    (∃ t1 t2 : Option Nat,
      (execute_step_with_retry R delay rid sname step st).2.store.step_logs =
        st.store.step_logs ++
          [(rid, { step_name := sname, status := StepStatus.failed,
                   started_at := t1, completed_at := t2,
                   error_message := some (errs R), retry_count := R })]) ∧
    (execute_step_with_retry R delay rid sname step st).2.sleeps =
      st.sleeps ++ List.replicate R delay := by
  obtain ⟨h1, ⟨t1, t2, h2⟩, _h3, h4, _h5⟩ := retryGo_all_fail delay rid sname step errs R 0 st
    (execute_step_with_retry R delay rid sname step st).1
    (execute_step_with_retry R delay rid sname step st).2
    (fun j hj => by simpa using h j hj) rfl
  rw [Nat.zero_add] at h1 h2
  exact ⟨h1, ⟨t1, t2, h2⟩, h4⟩

/-- The always-raising step used to witness `retry_executor_exhaustion`. -/
def stepAlwaysFail : Nat → Except String Unit := fun _ => Except.error "boom"

/-- Witness for C4 at `R = 2`: one failed log with `retry_count = 2`, result
`(False, None, "boom")`, and two sleeps of the configured delay. -/
theorem retry_executor_exhaustion_witness :
    (∀ i, i ≤ 2 → stepAlwaysFail i = Except.error "boom") ∧
    (execute_step_with_retry 2 1 "run-1" "fetch_emails" stepAlwaysFail {}).1 =
      (false, none, some "boom") ∧
    (execute_step_with_retry 2 1 "run-1" "fetch_emails" stepAlwaysFail {}).2.sleeps =
      List.replicate 2 1 := by
  refine ⟨fun i _ => rfl, ?_, ?_⟩
  · exact (retry_executor_exhaustion 2 1 "run-1" "fetch_emails" stepAlwaysFail
      (fun _ => "boom") {} (fun i _ => rfl)).1
  · simpa using (retry_executor_exhaustion 2 1 "run-1" "fetch_emails" stepAlwaysFail
      (fun _ => "boom") {} (fun i _ => rfl)).2.2

/-- C5: for a step operation that raises on its first `N` attempts and then
returns a value, with `max_retries ≥ N`, `_execute_step_with_retry` persists
exactly one `StepLog` (status `completed`, `retry_count = N`) and returns
`(True, the step's value, None)`. -/
theorem retry_executor_success {α : Type} (N R : Nat) (delay : ℚ) (rid sname : String)
    (step : Nat → Except String α) (errs : Nat → String) (v : α) (st : EngState)
    (hNR : N ≤ R)
    (hfail : ∀ j, j < N → step j = Except.error (errs j))
    (hok : step N = Except.ok v) :
    (execute_step_with_retry R delay rid sname step st).1 = (true, some v, none) ∧
    (∃ t1 t2 : Option Nat,
      (execute_step_with_retry R delay rid sname step st).2.store.step_logs =
        st.store.step_logs ++
          [(rid, { step_name := sname, status := StepStatus.completed,
                   started_at := t1, completed_at := t2,
                   error_message := none, retry_count := N })]) ∧
    (execute_step_with_retry R delay rid sname step st).2.sleeps =
      st.sleeps ++ List.replicate N delay := by
  obtain ⟨h1, ⟨t1, t2, h2⟩, _h3, h4, _h5⟩ := retryGo_success_after delay rid sname step errs v
    N R 0 st
    (execute_step_with_retry R delay rid sname step st).1
    (execute_step_with_retry R delay rid sname step st).2
    hNR (fun j hj => by simpa using hfail j hj) (by simpa using hok) rfl
  rw [Nat.zero_add] at h2
  exact ⟨h1, ⟨t1, t2, h2⟩, h4⟩

/-- A step raising on attempts 0 before succeeding on attempt 1, used to
witness `retry_executor_success`. -/
def stepFlaky : Nat → Except String Nat :=
  fun i => if i < 1 then Except.error "transient" else Except.ok 42

/-- Witness for C5 at `N = 1`, `R = 3`: result `(True, 42, None)` and one
sleep. -/
theorem retry_executor_success_witness :
    (1 : Nat) ≤ 3 ∧
    (∀ j, j < 1 → stepFlaky j = Except.error "transient") ∧
    stepFlaky 1 = Except.ok 42 ∧
    (execute_step_with_retry 3 1 "run-1" "write_to_sheets" stepFlaky {}).1 =
      (true, some 42, none) ∧
    (execute_step_with_retry 3 1 "run-1" "write_to_sheets" stepFlaky {}).2.sleeps =
      List.replicate 1 1 := by
  refine ⟨by decide, fun j hj => by interval_cases j; rfl, rfl, ?_, ?_⟩
  · exact (retry_executor_success 1 3 1 "run-1" "write_to_sheets" stepFlaky
      (fun _ => "transient") 42 {} (by decide)
      (fun j hj => by interval_cases j; rfl) rfl).1
  · simpa using (retry_executor_success 1 3 1 "run-1" "write_to_sheets" stepFlaky
      (fun _ => "transient") 42 {} (by decide)
      (fun j hj => by interval_cases j; rfl) rfl).2.2

/-! ## Frame lemmas for the engine pipeline -/

/-- The classification-caching loop touches only the analytics trace: store,
clock and sleep trace are untouched. -/
theorem cacheClassifications_frame (env : Env) :
    ∀ (emails : List EmailData) (st : EngState),
      (cacheClassifications env emails st).store = st.store ∧
      (cacheClassifications env emails st).clock = st.clock ∧
      (cacheClassifications env emails st).sleeps = st.sleeps := by
  intro emails
  induction emails with
  | nil => intro st; exact ⟨rfl, rfl, rfl⟩
  | cons e tl ih =>
    intro st
    simp only [cacheClassifications, List.foldl_cons] at ih ⊢
    split
    · split
      · exact ih _
      · exact ih _
    · exact ih _

/-- `create_run` never touches the step-log table. -/
theorem stAfterCreate_step_logs (env : Env) (st : EngState) :
    (stAfterCreate env st).store.step_logs = st.store.step_logs := by
  simp only [stAfterCreate, initialRun, StoreState.create_run, tick]
  split <;> rfl

/-- When the allocated run identifier is fresh, `create_run` appends exactly
the created run row. -/
theorem stAfterCreate_runs_fresh (env : Env) (st : EngState)
    (h : ∀ rec ∈ st.store.runs, rec.run_id ≠ env.run_id) :
    (stAfterCreate env st).store.runs = st.store.runs ++ [(initialRun env st).1] := by
  simp only [stAfterCreate, initialRun, StoreState.create_run, tick]
  rw [if_neg]
  simp only [List.any_eq_true, not_exists, not_and]
  intro rec hrec
  simpa using h rec hrec

/-- Every run row of the updated table that carries the updated identifier is
the update applied to some pre-existing row. -/
theorem update_run_mem (s : StoreState) (rid : String) (u : RunUpdate) :
    ∀ rec ∈ (StoreState.update_run s rid u).2.runs, rec.run_id = rid →
      ∃ x ∈ s.runs, rec = applyRunUpdate x u := by
  intro rec hrec hid
  simp only [StoreState.update_run, List.mem_map] at hrec
  obtain ⟨x, hx, hxe⟩ := hrec
  by_cases hxid : x.run_id = rid
  · exact ⟨x, hx, by simp [← hxe, hxid]⟩
  · exfalso
    rw [← hxe] at hid
    simp [hxid] at hid

/-- Characterization of a run whose stage-1 abort condition holds: the
returned run is the created run stamped `failed` with the stage-1 message,
exactly one (fetch) step log was persisted, and the run table is the table
after `create_run` with the terminal failed update applied to the run's
row. -/
theorem abort_spec (env : Env) (me : Nat) (gr : Bool) (st : EngState)
    (h : stage1Aborts env me st = true) :
    (∃ t : Nat, (execute_workflow env me gr st).1 =
      { (initialRun env st).1 with
        status := WorkflowStatus.failed,
        error_message := some (stage1Msg env me st),
        completed_at := some t } ∧
      (execute_workflow env me gr st).2.store.runs =
        (stAfterCreate env st).store.runs.map
          (fun r => if r.run_id = env.run_id then applyRunUpdate r
            { status := some WorkflowStatus.failed,
              error_message := some (stage1Msg env me st),
              completed_at := some t } else r)) ∧
    (∃ flog : StepLog, flog.step_name = "fetch_emails" ∧
      (execute_workflow env me gr st).2.store.step_logs =
        st.store.step_logs ++ [(env.run_id, flog)]) := by
  rcases hfp : fetchPhase env me (stAfterCreate env st) with ⟨⟨s, eo, er⟩, st2⟩
  have hcond : (!s || (eo.getD []).isEmpty) = true := by
    have := h
    unfold stage1Aborts at this
    rw [hfp] at this
    simpa using this
  have hmsg : stage1Msg env me st =
      (match er with
       | some e => if e = "" then "No emails fetched" else e
       | none => "No emails fetched") := by
    simp only [stage1Msg, hfp]
    cases er <;> rfl
  obtain ⟨flog, hlogs, hruns, _, hname, _⟩ :=
    retryGo_spec env.retryDelay env.run_id "fetch_emails" (env.fetchStep me)
      env.maxRetries 0 (stAfterCreate env st) (s, eo, er) st2
      (by simpa [fetchPhase, execute_step_with_retry] using hfp)
  have hrun : execute_workflow env me gr st =
      ({ (initialRun env st).1 with
          status := WorkflowStatus.failed,
          error_message := some (stage1Msg env me st),
          completed_at := some st2.clock },
        { tick st2 with
          store := (StoreState.update_run (tick st2).store env.run_id
            { status := some WorkflowStatus.failed,
              error_message := some (stage1Msg env me st),
              completed_at := some st2.clock }).2 }) := by
    rw [hmsg]
    simp only [execute_workflow, workflowBody, workflowTry, hfp, hcond, if_true]
    cases er <;> rfl
  rw [hrun]
  refine ⟨⟨st2.clock, rfl, ?_⟩, ⟨flog, hname, ?_⟩⟩
  · show (StoreState.update_run st2.store env.run_id _).2.runs = _
    simp only [StoreState.update_run]
    rw [hruns]
  · show (StoreState.update_run st2.store env.run_id _).2.step_logs = _
    simp only [StoreState.update_run]
    rw [hlogs, stAfterCreate_step_logs]

/-- C2: when the fetch step fails (exhausts its retries) or succeeds with an
empty item sequence, `execute_workflow` terminates the run as `failed` with
`error_message` = the executor's error (or the no-items-fetched message),
stamps `completed_at`, persists that terminal state, and never runs the write
or report stages — every step log added by the run is a fetch log, so no
write or report `StepLog` exists for this run. -/
theorem pipeline_abort (env : Env) (me : Nat) (gr : Bool) (st : EngState)
    (h : stage1Aborts env me st = true) :
    (execute_workflow env me gr st).1.status = WorkflowStatus.failed ∧
    (execute_workflow env me gr st).1.error_message = some (stage1Msg env me st) ∧
    (execute_workflow env me gr st).1.completed_at.isSome = true ∧
    (∀ p ∈ (execute_workflow env me gr st).2.store.step_logs.drop
        st.store.step_logs.length, p.2.step_name = "fetch_emails") ∧
    (∀ rec ∈ (execute_workflow env me gr st).2.store.runs, rec.run_id = env.run_id →
      rec.status = WorkflowStatus.failed ∧
      rec.error_message = some (stage1Msg env me st) ∧
      rec.completed_at.isSome = true) := by
  obtain ⟨⟨t, hrun, hruns⟩, ⟨flog, hname, hlogs⟩⟩ := abort_spec env me gr st h
  refine ⟨by rw [hrun], by rw [hrun], by rw [hrun]; rfl, ?_, ?_⟩
  · intro p hp
    rw [hlogs, List.drop_left] at hp
    simp only [List.mem_singleton] at hp
    rw [hp]
    exact hname
  · intro rec hrec hid
    rw [hruns] at hrec
    simp only [List.mem_map] at hrec
    obtain ⟨x, _, hxe⟩ := hrec
    by_cases hxid : x.run_id = env.run_id
    · rw [← hxe]
      simp [hxid, applyRunUpdate]
    · exfalso
      rw [← hxe] at hid
      simp [hxid] at hid

/-- An environment whose fetch collaborator succeeds with an empty inbox,
used to witness `pipeline_abort`. -/
def envEmptyFetch : Env :=
  { run_id := "run-empty", maxRetries := 2, retryDelay := 1,
    fetchStep := fun _ _ => Except.ok [],
    writeStep := fun _ _ => Except.ok 0,
    reportStep := fun _ _ => Except.error "unused",
    saveReport := fun _ => Except.ok "unused",
    cacheResult := fun _ => Except.ok () }

/-- Witness for C2: an empty fetch result ends the run `failed` with the
no-items-fetched message. -/
theorem pipeline_abort_witness :
    stage1Aborts envEmptyFetch 5 {} = true ∧
    (execute_workflow envEmptyFetch 5 true {}).1.status = WorkflowStatus.failed ∧
    (execute_workflow envEmptyFetch 5 true {}).1.error_message = some "No emails fetched" := by
  refine ⟨rfl, ?_, ?_⟩
  · exact (pipeline_abort envEmptyFetch 5 true {} rfl).1
  · exact ((pipeline_abort envEmptyFetch 5 true {} rfl).2.1).trans rfl

/-- Characterization of stage 3 plus the terminal block: either the run
completes normally — the result is the input run stamped `completed` with a
possibly-updated report path, the run table receives the terminal completed
update, and exactly one report log was appended precisely when a report was
requested — or the report was requested and built but `save_report` raised,
in which case the exception and the unchanged in-flight run propagate to the
top-level handler. -/
theorem stage3_spec (env : Env) (gr : Bool) (run : WorkflowRun)
    (emails : List EmailData) (st : EngState) :
    ∀ (res : Except (String × WorkflowRun) WorkflowRun) (st' : EngState),
      stage3 env gr run emails st = (res, st') →
      ((∃ (rp : Option String) (t : Nat),
          res = Except.ok { run with
            report_path := rp,
            status := WorkflowStatus.completed, completed_at := some t } ∧
          st'.store.runs = st.store.runs.map
            (fun r => if r.run_id = env.run_id then applyRunUpdate r
              { status := some WorkflowStatus.completed, completed_at := some t,
                emails_processed := some run.emails_processed,
                report_path := some rp } else r) ∧
          ((gr = true ∧ ∃ rlog : StepLog, rlog.step_name = "generate_report" ∧
              st'.store.step_logs = st.store.step_logs ++ [(env.run_id, rlog)]) ∨
           (gr = false ∧ st'.store.step_logs = st.store.step_logs))) ∨
       (∃ e : String,
          res = Except.error (e, run) ∧
          (∃ rd, env.saveReport rd = Except.error e) ∧
          gr = true ∧
          st'.store.runs = st.store.runs ∧
          (∃ rlog : StepLog, rlog.step_name = "generate_report" ∧
            st'.store.step_logs = st.store.step_logs ++ [(env.run_id, rlog)]))) := by
  intro res st' h
  cases gr with
  | false =>
    simp only [stage3, Bool.false_eq_true, if_false, completeRun, tick] at h
    rw [Prod.mk.injEq] at h
    obtain ⟨hres, hst⟩ := h
    subst hres
    subst hst
    exact Or.inl ⟨run.report_path, st.clock, rfl, rfl, Or.inr ⟨rfl, rfl⟩⟩
  | true =>
    rcases hrp : reportPhase env emails st with ⟨⟨rs, rdo, re⟩, stR⟩
    obtain ⟨rlog, hrlogs, hrruns, _, hrname, _⟩ :=
      retryGo_spec env.retryDelay env.run_id "generate_report" (env.reportStep emails)
        env.maxRetries 0 st (rs, rdo, re) stR
        (by simpa [reportPhase, execute_step_with_retry] using hrp)
    simp only [stage3, if_true, hrp] at h
    cases rs with
    | false =>
      cases rdo with
      | none =>
        simp only [completeRun, tick] at h
        rw [Prod.mk.injEq] at h
        obtain ⟨hres, hst⟩ := h
        subst hres
        subst hst
        refine Or.inl ⟨run.report_path, stR.clock, rfl, ?_, Or.inl ⟨rfl, rlog, hrname, ?_⟩⟩
        · show (StoreState.update_run stR.store env.run_id _).2.runs = _
          simp only [StoreState.update_run]
          rw [hrruns]
        · show (StoreState.update_run stR.store env.run_id _).2.step_logs = _
          simp only [StoreState.update_run]
          exact hrlogs
      | some rd =>
        simp only [completeRun, tick] at h
        rw [Prod.mk.injEq] at h
        obtain ⟨hres, hst⟩ := h
        subst hres
        subst hst
        refine Or.inl ⟨run.report_path, stR.clock, rfl, ?_, Or.inl ⟨rfl, rlog, hrname, ?_⟩⟩
        · show (StoreState.update_run stR.store env.run_id _).2.runs = _
          simp only [StoreState.update_run]
          rw [hrruns]
        · show (StoreState.update_run stR.store env.run_id _).2.step_logs = _
          simp only [StoreState.update_run]
          exact hrlogs
    | true =>
      cases rdo with
      | none =>
        simp only [completeRun, tick] at h
        rw [Prod.mk.injEq] at h
        obtain ⟨hres, hst⟩ := h
        subst hres
        subst hst
        refine Or.inl ⟨run.report_path, stR.clock, rfl, ?_, Or.inl ⟨rfl, rlog, hrname, ?_⟩⟩
        · show (StoreState.update_run stR.store env.run_id _).2.runs = _
          simp only [StoreState.update_run]
          rw [hrruns]
        · show (StoreState.update_run stR.store env.run_id _).2.step_logs = _
          simp only [StoreState.update_run]
          exact hrlogs
      | some rd =>
        cases hsv : env.saveReport rd with
        | ok path =>
          simp only [hsv, completeRun, tick] at h
          rw [Prod.mk.injEq] at h
          obtain ⟨hres, hst⟩ := h
          subst hres
          subst hst
          refine Or.inl ⟨some path, stR.clock, rfl, ?_, Or.inl ⟨rfl, rlog, hrname, ?_⟩⟩
          · show (StoreState.update_run stR.store env.run_id _).2.runs = _
            simp only [StoreState.update_run]
            rw [hrruns]
          · show (StoreState.update_run stR.store env.run_id _).2.step_logs = _
            simp only [StoreState.update_run]
            exact hrlogs
        | error e =>
          simp only [hsv] at h
          rw [Prod.mk.injEq] at h
          obtain ⟨hres, hst⟩ := h
          subst hres
          subst hst
          exact Or.inr ⟨e, rfl, ⟨rd, hsv⟩, rfl, hrruns, ⟨rlog, hrname, hrlogs⟩⟩

/-- Characterization of a run whose stage-1 abort condition fails: the fetch
succeeded with a non-empty email list, one fetch log and one write log were
persisted (the write stage always runs), a report log was persisted exactly
when a report was requested, and the run either completes normally (status
`completed`, no error message) or fails through the top-level handler because
`save_report` raised (status `failed` with the exception text). -/
theorem pipeline_no_abort_spec (env : Env) (me : Nat) (gr : Bool) (st : EngState)
    (hab : stage1Aborts env me st = false) :
    ∃ (n : Nat) (flog wlog : StepLog) (tail : List (String × StepLog)),
      0 < n ∧
      flog.step_name = "fetch_emails" ∧
      wlog.step_name = "write_to_sheets" ∧
      (execute_workflow env me gr st).1.run_id = env.run_id ∧
      (execute_workflow env me gr st).1.emails_processed = n ∧
      (execute_workflow env me gr st).2.store.step_logs =
        st.store.step_logs ++ [(env.run_id, flog), (env.run_id, wlog)] ++ tail ∧
      ((gr = true ∧ ∃ rlog : StepLog, rlog.step_name = "generate_report" ∧
          tail = [(env.run_id, rlog)]) ∨
       (gr = false ∧ tail = [])) ∧
      (((execute_workflow env me gr st).1.status = WorkflowStatus.completed ∧
        (execute_workflow env me gr st).1.error_message = none ∧
        (∃ t, (execute_workflow env me gr st).1.completed_at = some t) ∧
        (∃ (rp : Option String) (t : Nat),
          (execute_workflow env me gr st).2.store.runs =
            (stAfterCreate env st).store.runs.map
              (fun r => if r.run_id = env.run_id then applyRunUpdate r
                { status := some WorkflowStatus.completed, completed_at := some t,
                  emails_processed := some n, report_path := some rp } else r))) ∨
       (∃ e : String,
         (∃ rd, env.saveReport rd = Except.error e) ∧
         (execute_workflow env me gr st).1.status = WorkflowStatus.failed ∧
         (execute_workflow env me gr st).1.error_message = some e ∧
         (∃ t, (execute_workflow env me gr st).1.completed_at = some t) ∧
         (∃ t, (execute_workflow env me gr st).2.store.runs =
           (stAfterCreate env st).store.runs.map
             (fun r => if r.run_id = env.run_id then applyRunUpdate r
               { status := some WorkflowStatus.failed, error_message := some e,
                 completed_at := some t } else r)))) := by
  rcases hfp : fetchPhase env me (stAfterCreate env st) with ⟨⟨s, eo, er⟩, st2⟩
  have hcond : (!s || (eo.getD []).isEmpty) = false := by
    have h2 := hab
    unfold stage1Aborts at h2
    rw [hfp] at h2
    simpa using h2
  obtain ⟨flog, hflogs, hfruns, _, hfname, _⟩ :=
    retryGo_spec env.retryDelay env.run_id "fetch_emails" (env.fetchStep me)
      env.maxRetries 0 (stAfterCreate env st) (s, eo, er) st2
      (by simpa [fetchPhase, execute_step_with_retry] using hfp)
  set emails := eo.getD [] with hemails
  have hne : emails.isEmpty = false := (Bool.or_eq_false_iff.mp hcond).2
  have hnpos : 0 < emails.length := List.length_pos.mpr (by simpa using hne)
  set st3 := cacheClassifications env emails st2 with hst3
  have hc3store : st3.store = st2.store := (cacheClassifications_frame env emails st2).1
  rcases hwp : writePhase env (prepare_sheet_rows emails st3.clock) st3 with ⟨wres, stW⟩
  obtain ⟨wlog, hwlogs, hwruns, _, hwname, _⟩ :=
    retryGo_spec env.retryDelay env.run_id "write_to_sheets"
      (env.writeStep (prepare_sheet_rows emails st3.clock))
      env.maxRetries 0 st3 wres stW
      (by simpa [writePhase, execute_step_with_retry] using hwp)
  have hWlogs : stW.store.step_logs =
      st.store.step_logs ++ [(env.run_id, flog), (env.run_id, wlog)] := by
    rw [hwlogs, hc3store, hflogs, stAfterCreate_step_logs]
    simp
  have hWruns : stW.store.runs = (stAfterCreate env st).store.runs := by
    rw [hwruns, hc3store, hfruns]
  rcases hs3 : stage3 env gr
      { (initialRun env st).1 with emails_processed := emails.length } emails stW
    with ⟨res3, stF⟩
  have hspec := stage3_spec env gr _ emails stW res3 stF hs3
  have htry : workflowTry env me gr (initialRun env st).1 (stAfterCreate env st) =
      (res3, stF) := by
    simp only [workflowTry, hfp, ← hemails, hcond, Bool.false_eq_true, if_false, ← hst3]
    rw [hwp]
    exact hs3
  cases res3 with
  | ok r =>
    have hexec : execute_workflow env me gr st = (r, stF) := by
      show workflowBody env me gr (initialRun env st).1 (stAfterCreate env st) = _
      rw [workflowBody, htry]
    rcases hspec with ⟨rp, t, hres, hrunsEq, htail⟩ | ⟨e, hres, _, _, _, _⟩
    · rw [Except.ok.injEq] at hres
      subst hres
      rcases htail with ⟨hgr, rlog, hrname, hlogEq⟩ | ⟨hgr, hlogEq⟩
      · refine ⟨emails.length, flog, wlog, [(env.run_id, rlog)], hnpos, hfname, hwname,
          by rw [hexec]; try rfl, by rw [hexec]; try rfl, ?_, Or.inl ⟨hgr, rlog, hrname, rfl⟩, ?_⟩
        · rw [hexec]
          show stF.store.step_logs = _
          rw [hlogEq, hWlogs]
        · refine Or.inl ⟨by rw [hexec]; try rfl, by rw [hexec]; try rfl, ⟨t, by rw [hexec]; try rfl⟩,
            ⟨rp, t, ?_⟩⟩
          rw [hexec]
          show stF.store.runs = _
          rw [hrunsEq, hWruns]
      · refine ⟨emails.length, flog, wlog, [], hnpos, hfname, hwname,
          by rw [hexec]; try rfl, by rw [hexec]; try rfl, ?_, Or.inr ⟨hgr, rfl⟩, ?_⟩
        · rw [hexec]
          show stF.store.step_logs = _
          rw [hlogEq, hWlogs]
          simp
        · refine Or.inl ⟨by rw [hexec]; try rfl, by rw [hexec]; try rfl, ⟨t, by rw [hexec]; try rfl⟩,
            ⟨rp, t, ?_⟩⟩
          rw [hexec]
          show stF.store.runs = _
          rw [hrunsEq, hWruns]
    · exact absurd hres (by simp)
  | error pr =>
    rcases pr with ⟨e, runAt⟩
    have hexec : execute_workflow env me gr st =
        ({ runAt with
            status := WorkflowStatus.failed,
            error_message := some e,
            completed_at := some stF.clock },
         { tick stF with store := (StoreState.update_run (tick stF).store env.run_id
            { status := some WorkflowStatus.failed, error_message := some e,
              completed_at := some stF.clock }).2 }) := by
      show workflowBody env me gr (initialRun env st).1 (stAfterCreate env st) = _
      rw [workflowBody, htry]
    rcases hspec with ⟨_, _, hres, _⟩ | ⟨e2, hres, hsave, hgrT, hrunsF, rlog, hrname, hlogF⟩
    · exact absurd hres (by simp)
    · rw [Except.error.injEq, Prod.mk.injEq] at hres
      obtain ⟨he2, hrunAt⟩ := hres
      subst he2
      subst hrunAt
      refine ⟨emails.length, flog, wlog, [(env.run_id, rlog)], hnpos, hfname, hwname,
        by rw [hexec]; try rfl, by rw [hexec]; try rfl, ?_, Or.inl ⟨hgrT, rlog, hrname, rfl⟩, ?_⟩
      · rw [hexec]
        show stF.store.step_logs = _
        rw [hlogF, hWlogs]
      · refine Or.inr ⟨e, hsave, by rw [hexec]; try rfl, by rw [hexec]; try rfl, ⟨stF.clock, by rw [hexec]; try rfl⟩,
          ⟨stF.clock, ?_⟩⟩
        rw [hexec]
        show (StoreState.update_run stF.store env.run_id _).2.runs = _
        simp only [StoreState.update_run]
        rw [hrunsF, hWruns]

/-- C1: for every collaborator behaviour, retry budget and flag,
`execute_workflow` never raises (it is a total function into `WorkflowRun`,
every collaborator exception being handled) and the returned run's status is
terminal; the `failed` status arises only through the stage-1 abort branch
(with the stage-1 message recorded) or through the top-level exception
handler, which records the escaped exception's message — in this code the
only call that can raise below the top level is `save_report`. -/
theorem engine_total_and_terminal (env : Env) (me : Nat) (gr : Bool) (st : EngState) :
    ((execute_workflow env me gr st).1.status = WorkflowStatus.completed ∨
     (execute_workflow env me gr st).1.status = WorkflowStatus.failed) ∧
    ((execute_workflow env me gr st).1.status = WorkflowStatus.failed →
      (stage1Aborts env me st = true ∧
       (execute_workflow env me gr st).1.error_message = some (stage1Msg env me st)) ∨
      (∃ rd e, env.saveReport rd = Except.error e ∧
        (execute_workflow env me gr st).1.error_message = some e)) := by
  cases hab : stage1Aborts env me st with
  | true =>
    obtain ⟨⟨t, hrun, _⟩, _⟩ := abort_spec env me gr st hab
    exact ⟨Or.inr (by rw [hrun]), fun _ => Or.inl ⟨rfl, by rw [hrun]⟩⟩
  | false =>
    obtain ⟨n, flog, wlog, tail, _, _, _, _, _, _, _, hout⟩ :=
      pipeline_no_abort_spec env me gr st hab
    rcases hout with ⟨hst, _, _, _⟩ | ⟨e, ⟨rd, hsv⟩, hst, herr, _, _⟩
    · exact ⟨Or.inl hst, fun hf => absurd (hst.symm.trans hf) (by simp)⟩
    · exact ⟨Or.inr hst, fun _ => Or.inr ⟨rd, e, hsv, herr⟩⟩

/-- An email whose sentiment carries a mid-range urgency score, used by the
concrete environments below. -/
def emailMid : EmailData :=
  { message_id := "msg-1", subject := "invoice due", sender := "a@example.com",
    recipient := "me@example.com", date := "2024-01-01 00:00:00",
    body := "please pay", snippet := "please pay the invoice",
    classification := some { category := "invoice", confidence := 9/10, reasoning := "kw" },
    sentiment := some { sentiment := "neutral", urgency_score := 1/2,
                        requires_human := false, confidence := 9/10 } }

/-- An environment in which every collaborator succeeds. -/
def envHappy : Env :=
  { run_id := "run-ok", maxRetries := 1, retryDelay := 1,
    fetchStep := fun _ _ => Except.ok [emailMid],
    writeStep := fun _ _ => Except.ok 1,
    reportStep := fun es _ =>
      Except.ok (build_report (fun _ => "summary") (fun _ => ["insight"]) es
        "Email Analysis Report" 0),
    saveReport := fun _ => Except.ok "reports/report.md",
    cacheResult := fun _ => Except.ok () }

/-- Witness for C1 at a concrete environment: the returned status is
terminal. -/
theorem engine_total_and_terminal_witness :
    (execute_workflow envHappy 3 true {}).1.status = WorkflowStatus.completed ∨
    (execute_workflow envHappy 3 true {}).1.status = WorkflowStatus.failed :=
  (engine_total_and_terminal envHappy 3 true {}).1

/-- An environment with a successful non-empty fetch, a write step that
raises on every attempt, a successful report build, and a `save_report` that
raises (e.g. a disk error while persisting the artifact). -/
def envSaveRaises : Env :=
  { run_id := "run-c3", maxRetries := 1, retryDelay := 0,
    fetchStep := fun _ _ => Except.ok [emailMid],
    writeStep := fun _ _ => Except.error "sheets down",
    reportStep := fun es _ =>
      Except.ok (build_report (fun _ => "summary") (fun _ => []) es "t" 0),
    saveReport := fun _ => Except.error "disk full",
    cacheResult := fun _ => Except.ok () }

/-- Counterexample to C3 as stated: a run in which fetch succeeds with one
email and the write step exhausts its retries, yet the terminal status is
`failed` — the report stage ran and built its report, but `save_report`
raised, and the top-level handler (engine.py lines 205-216) stamps the run
`failed` with that exception text. -/
theorem pipeline_resilience_counterexample :
    (execute_workflow envSaveRaises 10 true {}).1.status = WorkflowStatus.failed ∧
    (execute_workflow envSaveRaises 10 true {}).1.error_message = some "disk full" ∧
    (execute_workflow envSaveRaises 10 true {}).1.emails_processed = 1 ∧
    ((execute_workflow envSaveRaises 10 true {}).2.store.step_logs.map
      (fun p => (p.2.step_name, p.2.status))) =
      [("fetch_emails", StepStatus.completed), ("write_to_sheets", StepStatus.failed),
       ("generate_report", StepStatus.completed)] := by
  exact ⟨rfl, rfl, rfl, rfl⟩

/-- C3 amended: when fetch succeeds with a non-empty item sequence, the write
stage's outcome — in particular a write step that exhausts its retries — never
changes the run status or `error_message`: the engine still continues to the
report stage (when requested) and the run's terminal status is `completed`,
provided no exception escapes to the top-level handler afterwards (in this
code the only such source is `save_report` raising, which flips the status to
`failed`, as the counterexample shows). -/
theorem pipeline_resilience (env : Env) (me : Nat) (gr : Bool) (st : EngState)
    (hab : stage1Aborts env me st = false)
    (hsave : ∀ rd e, env.saveReport rd ≠ Except.error e) :
    (execute_workflow env me gr st).1.status = WorkflowStatus.completed ∧
    (execute_workflow env me gr st).1.error_message = none ∧
    (∃ flog wlog : StepLog, flog.step_name = "fetch_emails" ∧
      wlog.step_name = "write_to_sheets" ∧
      (gr = true → ∃ rlog : StepLog, rlog.step_name = "generate_report" ∧
        (execute_workflow env me gr st).2.store.step_logs =
          st.store.step_logs ++
            [(env.run_id, flog), (env.run_id, wlog), (env.run_id, rlog)]) ∧
      (gr = false → (execute_workflow env me gr st).2.store.step_logs =
          st.store.step_logs ++ [(env.run_id, flog), (env.run_id, wlog)])) := by
  obtain ⟨n, flog, wlog, tail, _, hfname, hwname, _, _, hlogs, htail, hout⟩ :=
    pipeline_no_abort_spec env me gr st hab
  rcases hout with ⟨hst, herr, _, _⟩ | ⟨e, ⟨rd, hsv⟩, _⟩
  · refine ⟨hst, herr, flog, wlog, hfname, hwname, ?_, ?_⟩
    · intro hgr
      rcases htail with ⟨_, rlog, hrname, htl⟩ | ⟨hgrF, _⟩
      · refine ⟨rlog, hrname, ?_⟩
        rw [hlogs, htl]
        simp
      · rw [hgr] at hgrF
        exact absurd hgrF (by simp)
    · intro hgrF
      rcases htail with ⟨hgrT, _⟩ | ⟨_, htl⟩
      · rw [hgrF] at hgrT
        exact absurd hgrT (by simp)
      · rw [hlogs, htl]
        simp
  · exact absurd hsv (hsave rd e)

/-- An environment in which fetch succeeds with one email, the write step
raises on every attempt, and everything else succeeds. -/
def envWriteFails : Env :=
  { run_id := "run-w", maxRetries := 1, retryDelay := 0,
    fetchStep := fun _ _ => Except.ok [emailMid],
    writeStep := fun _ _ => Except.error "sheets down",
    reportStep := fun es _ =>
      Except.ok (build_report (fun _ => "summary") (fun _ => []) es "t" 0),
    saveReport := fun _ => Except.ok "reports/report.md",
    cacheResult := fun _ => Except.ok () }

/-- Witness for the amended C3: with a failing write step and a non-raising
`save_report`, the run still completes with no error message. -/
theorem pipeline_resilience_witness :
    stage1Aborts envWriteFails 3 {} = false ∧
    (∀ rd e, envWriteFails.saveReport rd ≠ Except.error e) ∧
    (execute_workflow envWriteFails 3 true {}).1.status = WorkflowStatus.completed ∧
    (execute_workflow envWriteFails 3 true {}).1.error_message = none := by
  refine ⟨rfl, fun rd e => by simp [envWriteFails], ?_, ?_⟩
  · exact (pipeline_resilience envWriteFails 3 true {} rfl
      (fun rd e => by simp [envWriteFails])).1
  · exact (pipeline_resilience envWriteFails 3 true {} rfl
      (fun rd e => by simp [envWriteFails])).2.1

/-- When the allocated run identifier is fresh, the only row of the updated
run table carrying that identifier is the created run with the terminal
update applied. -/
theorem runs_map_fresh_mem (env : Env) (st : EngState) (u : RunUpdate)
    (hfresh : ∀ rec ∈ st.store.runs, rec.run_id ≠ env.run_id) :
    ∀ rec ∈ (stAfterCreate env st).store.runs.map
        (fun r => if r.run_id = env.run_id then applyRunUpdate r u else r),
      rec.run_id = env.run_id → rec = applyRunUpdate (initialRun env st).1 u := by
  intro rec hrec hid
  rw [stAfterCreate_runs_fresh env st hfresh] at hrec
  rw [List.map_append, List.mem_append] at hrec
  rcases hrec with hL | hR
  · obtain ⟨x, hx, hxe⟩ := List.mem_map.mp hL
    by_cases hxid : x.run_id = env.run_id
    · exact absurd hxid (hfresh x hx)
    · rw [← hxe] at hid
      simp only [hxid, if_false] at hid
  · simp only [List.map_cons, List.map_nil, List.mem_singleton] at hR
    rw [hR]
    simp [initialRun]

/-- C6: every run state written by the engine satisfies the `WorkflowRun`
invariant — the status is one of the four defined values, `completed_at` is
set iff the status is terminal, `error_message` is set only when the status
is `failed` — and the status only moves from `running` (the created run) to a
terminal `completed` or `failed`: the returned run and the persisted run row
are terminal with the same status. -/
theorem workflow_run_invariant (env : Env) (me : Nat) (gr : Bool) (st : EngState)
    (hfresh : ∀ rec ∈ st.store.runs, rec.run_id ≠ env.run_id) :
    (initialRun env st).1.status = WorkflowStatus.running ∧
    runInvariant (initialRun env st).1 ∧
    runInvariant (execute_workflow env me gr st).1 ∧
    ((execute_workflow env me gr st).1.status = WorkflowStatus.completed ∨
     (execute_workflow env me gr st).1.status = WorkflowStatus.failed) ∧
    (∀ rec ∈ (execute_workflow env me gr st).2.store.runs,
      rec.run_id = env.run_id →
        runInvariant rec ∧ rec.status = (execute_workflow env me gr st).1.status) := by
  refine ⟨rfl, by simp [runInvariant, initialRun], ?_⟩
  cases hab : stage1Aborts env me st with
  | true =>
    obtain ⟨⟨t, hrun, hruns⟩, _⟩ := abort_spec env me gr st hab
    refine ⟨by rw [hrun]; simp [runInvariant, initialRun], Or.inr (by rw [hrun]), ?_⟩
    intro rec hrec hid
    rw [hruns] at hrec
    have := runs_map_fresh_mem env st _ hfresh rec hrec hid
    rw [this, hrun]
    constructor
    · simp [runInvariant, applyRunUpdate, initialRun]
    · simp [applyRunUpdate]
  | false =>
    obtain ⟨n, flog, wlog, tail, _, _, _, _, _, _, _, hout⟩ :=
      pipeline_no_abort_spec env me gr st hab
    rcases hout with ⟨hst, herr, ⟨tc, hct⟩, rp, t, hruns⟩ |
      ⟨e, _, hst, herr, ⟨tc, hct⟩, t, hruns⟩
    · refine ⟨⟨Or.inr (Or.inr (Or.inl hst)), by rw [hct, hst]; simp,
        fun hx => by rw [herr] at hx; simp at hx⟩, Or.inl hst, ?_⟩
      intro rec hrec hid
      rw [hruns] at hrec
      have := runs_map_fresh_mem env st _ hfresh rec hrec hid
      rw [this, hst]
      constructor
      · simp [runInvariant, applyRunUpdate, initialRun]
      · simp [applyRunUpdate]
    · refine ⟨⟨Or.inr (Or.inr (Or.inr hst)), by rw [hct, hst]; simp, fun _ => hst⟩,
        Or.inr hst, ?_⟩
      intro rec hrec hid
      rw [hruns] at hrec
      have := runs_map_fresh_mem env st _ hfresh rec hrec hid
      rw [this, hst]
      constructor
      · simp [runInvariant, applyRunUpdate, initialRun]
      · simp [applyRunUpdate]

/-- Witness for C6 at a concrete fresh store: the returned run satisfies the
invariant. -/
theorem workflow_run_invariant_witness :
    (∀ rec ∈ ({} : EngState).store.runs, rec.run_id ≠ envHappy.run_id) ∧
    runInvariant (execute_workflow envHappy 3 true {}).1 := by
  refine ⟨by simp, (workflow_run_invariant envHappy 3 true {} (by simp)).2.2.1⟩

/-- A pre-existing run row whose identifier collides with `envHappy`'s. -/
def preRun : WorkflowRun :=
  { run_id := "run-ok", status := WorkflowStatus.completed, started_at := 0 }

/-- An engine state whose store already contains `preRun`. -/
def stDup : EngState := { store := { runs := [preRun] } }

/-- Counterexample to C7 as stated: `create_run` does return `False` on the
duplicate identifier, but the engine ignores that return value (engine.py
line 118) and proceeds to execute all pipeline stages anyway — the run
fetches one email, writes, reports, and ends `completed`. -/
theorem create_run_fatal_counterexample :
    (StoreState.create_run stDup.store (initialRun envHappy stDup).1).1 = false ∧
    (execute_workflow envHappy 3 true stDup).1.status = WorkflowStatus.completed ∧
    (execute_workflow envHappy 3 true stDup).1.emails_processed = 1 ∧
    ((execute_workflow envHappy 3 true stDup).2.store.step_logs.map
      (fun p => p.2.step_name)) =
      ["fetch_emails", "write_to_sheets", "generate_report"] := by
  exact ⟨rfl, rfl, rfl, rfl⟩

/-- C7 amended: `create_run` returns `False` rather than raising on a
duplicate run identifier (its other I/O failures are likewise converted to
`False` in the source), but the engine does not treat `False` as fatal: it
discards `create_run`'s return value and always proceeds to stage 1 — the
first step log any run persists is a fetch log, whatever `create_run`
returned. -/
theorem create_run_duplicate_engine_ignores :
    (∀ (s : StoreState) (run : WorkflowRun),
      (s.runs.any (fun rec => rec.run_id = run.run_id)) = true →
      StoreState.create_run s run = (false, s)) ∧
    (∀ (env : Env) (me : Nat) (gr : Bool) (st : EngState),
      ∃ flog : StepLog, flog.step_name = "fetch_emails" ∧
        ((execute_workflow env me gr st).2.store.step_logs.drop
          st.store.step_logs.length).head? = some (env.run_id, flog)) := by
  constructor
  · intro s run h
    simp [StoreState.create_run, h]
  · intro env me gr st
    cases hab : stage1Aborts env me st with
    | true =>
      obtain ⟨_, flog, hname, hlogs⟩ := abort_spec env me gr st hab
      refine ⟨flog, hname, ?_⟩
      rw [hlogs, List.drop_left]
      rfl
    | false =>
      obtain ⟨n, flog, wlog, tail, _, hfname, _, _, _, hlogs, _, _⟩ :=
        pipeline_no_abort_spec env me gr st hab
      refine ⟨flog, hfname, ?_⟩
      rw [hlogs, List.append_assoc, List.drop_left]
      rfl

/-- Witness for the amended C7: the duplicate insert returns `False` and the
engine still proceeds to stage 1. -/
theorem create_run_duplicate_engine_ignores_witness :
    StoreState.create_run stDup.store preRun = (false, stDup.store) ∧
    (∃ flog : StepLog, flog.step_name = "fetch_emails" ∧
      ((execute_workflow envHappy 3 true stDup).2.store.step_logs.drop
        stDup.store.step_logs.length).head? = some (envHappy.run_id, flog)) := by
  exact ⟨create_run_duplicate_engine_ignores.1 stDup.store preRun rfl,
         create_run_duplicate_engine_ignores.2 envHappy 3 true stDup⟩

/-! ## Lemmas about the report builder -/

/-- The urgency-stats fold counts, on top of its accumulator, exactly the
emails satisfying each bucket predicate. -/
theorem buildUrgencyStats_counts :
    ∀ (emails : List EmailData) (acc : UrgencyStats × List String),
      (List.foldl bucketStep acc emails).1.important =
        acc.1.important + emails.countP isHigh ∧
      (List.foldl bucketStep acc emails).1.neededReview =
        acc.1.neededReview + emails.countP isMedium ∧
      (List.foldl bucketStep acc emails).1.takeYourTime =
        acc.1.takeYourTime + emails.countP isLow := by
  intro emails
  induction emails with
  | nil => intro acc; simp
  | cons e tl ih =>
    intro acc
    obtain ⟨i1, i2, i3⟩ := ih (bucketStep acc e)
    refine ⟨?_, ?_, ?_⟩
    · rw [List.foldl_cons, i1, List.countP_cons]
      cases hs : e.sentiment with
      | none => simp [bucketStep, hs, isHigh]
      | some sa =>
        by_cases h7 : (7 : ℚ)/10 ≤ sa.urgency_score
        · simp [bucketStep, hs, isHigh, h7]
          omega
        · by_cases h4 : (4 : ℚ)/10 ≤ sa.urgency_score
          · simp [bucketStep, hs, isHigh, h7, h4]
          · simp [bucketStep, hs, isHigh, h7, h4]
    · rw [List.foldl_cons, i2, List.countP_cons]
      cases hs : e.sentiment with
      | none => simp [bucketStep, hs, isMedium]
      | some sa =>
        by_cases h7 : (7 : ℚ)/10 ≤ sa.urgency_score
        · simp [bucketStep, hs, isMedium, h7]
        · by_cases h4 : (4 : ℚ)/10 ≤ sa.urgency_score
          · simp [bucketStep, hs, isMedium, h7, h4]
            omega
          · simp [bucketStep, hs, isMedium, h7, h4]
    · rw [List.foldl_cons, i3, List.countP_cons]
      cases hs : e.sentiment with
      | none => simp [bucketStep, hs, isLow]
      | some sa =>
        by_cases h7 : (7 : ℚ)/10 ≤ sa.urgency_score
        · have h4lt : ¬ sa.urgency_score < (4 : ℚ)/10 := by
            intro hlt
            linarith
          simp [bucketStep, hs, isLow, h7, h4lt]
        · by_cases h4 : (4 : ℚ)/10 ≤ sa.urgency_score
          · have h4lt : ¬ sa.urgency_score < (4 : ℚ)/10 := not_lt.mpr h4
            simp [bucketStep, hs, isLow, h7, h4, h4lt]
          · have h4lt : sa.urgency_score < (4 : ℚ)/10 := lt_of_not_le h4
            simp [bucketStep, hs, isLow, h7, h4, h4lt]
            omega

/-- Each email with a sentiment falls in exactly one bucket; emails without a
sentiment fall in none. -/
theorem countP_buckets (emails : List EmailData) :
    emails.countP isHigh + emails.countP isMedium + emails.countP isLow =
      emails.countP (fun e => e.sentiment.isSome) := by
  induction emails with
  | nil => rfl
  | cons e tl ih =>
    simp only [List.countP_cons]
    cases hs : e.sentiment with
    | none => simpa [isHigh, isMedium, isLow, hs] using ih
    | some sa =>
      by_cases h7 : (7 : ℚ)/10 ≤ sa.urgency_score
      · have h4lt : ¬ sa.urgency_score < (4 : ℚ)/10 := by
          intro hlt
          have : (4 : ℚ)/10 < (7 : ℚ)/10 := by norm_num
          exact absurd (lt_of_le_of_lt h7 hlt) (by linarith)
        simp [isHigh, isMedium, isLow, hs, h7, h4lt]
        omega
      · by_cases h4 : (4 : ℚ)/10 ≤ sa.urgency_score
        · have h4lt : ¬ sa.urgency_score < (4 : ℚ)/10 := not_lt.mpr h4
          simp [isHigh, isMedium, isLow, hs, h7, h4, h4lt]
          omega
        · have h4lt : sa.urgency_score < (4 : ℚ)/10 := lt_of_not_le h4
          simp [isHigh, isMedium, isLow, hs, h7, h4, h4lt]
          omega

/-- An email carrying a sentiment with the given urgency score. -/
def emailScore (id : String) (q : ℚ) : EmailData :=
  { message_id := id, subject := "subject " ++ id, sender := "x@example.com",
    recipient := "r", date := "2024-01-01 00:00:00", body := "b", snippet := "sn",
    sentiment := some { sentiment := "neutral", urgency_score := q,
                        requires_human := false, confidence := 1 } }

/-- The C8 scenario: three emails, none above urgency 0.7, one at 0.5, two
below 0.4. -/
def scenario3 : List EmailData :=
  [emailScore "e1" (1/2), emailScore "e2" (3/10), emailScore "e3" (1/5)]

/-- C8: when every item carries a sentiment result, `build_report`'s urgency
buckets count exactly the items at or above the 0.7 threshold (`Important`),
those in [0.4, 0.7) (`Needed Review`), and those below 0.4
(`Take Your Time`); in particular the three-email scenario yields buckets
`{high: 0, medium: 1, low: 2}`. -/
theorem report_urgency_bucketing :
    (∀ (summarize : List EmailData → String)
       (extract_insights : List EmailData → List String)
       (emails : List EmailData) (title : String) (now : Nat),
       (∀ e ∈ emails, e.sentiment.isSome = true) →
       (build_report summarize extract_insights emails title now).urgency_stats.important =
         emails.countP isHigh ∧
       (build_report summarize extract_insights emails title now).urgency_stats.neededReview =
         emails.countP isMedium ∧
       (build_report summarize extract_insights emails title now).urgency_stats.takeYourTime =
         emails.countP isLow) ∧
    (build_report (fun _ => "") (fun _ => []) scenario3 "t" 0).urgency_stats =
      ⟨0, 1, 2⟩ := by
  constructor
  · intro summarize extract_insights emails title now _
    obtain ⟨i1, i2, i3⟩ := buildUrgencyStats_counts emails (⟨0, 0, 0⟩, [])
    exact ⟨by simpa [build_report, buildUrgencyStats] using i1,
           by simpa [build_report, buildUrgencyStats] using i2,
           by simpa [build_report, buildUrgencyStats] using i3⟩
  · show (buildUrgencyStats scenario3).1 = _
    norm_num [scenario3, emailScore, buildUrgencyStats, bucketStep, List.foldl]

/-- Witness for C8: the scenario's hypothesis holds and the theorem's count
characterization applies to it. -/
theorem report_urgency_bucketing_witness :
    (∀ e ∈ scenario3, e.sentiment.isSome = true) ∧
    (build_report (fun _ => "") (fun _ => []) scenario3 "t" 0).urgency_stats.important =
      scenario3.countP isHigh := by
  exact ⟨by decide, (report_urgency_bucketing.1 (fun _ => "") (fun _ => [])
    scenario3 "t" 0 (by decide)).1⟩

/-- An email without a sentiment analysis. -/
def emailNoSent : EmailData :=
  { message_id := "m-none", subject := "s", sender := "x@example.com",
    recipient := "r", date := "2024-01-01 00:00:00", body := "b", snippet := "sn",
    sentiment := none }

/-- C10: `build_report` buckets only items that carry a sentiment result, so
the three bucket counts sum to the number of items with sentiment, while
`email_count` is always the full item-list length — and the sum can be
strictly smaller, as the two-email instance with one sentiment-free item
shows. -/
theorem report_buckets_sentiment_only :
    (∀ (summarize : List EmailData → String)
       (extract_insights : List EmailData → List String)
       (emails : List EmailData) (title : String) (now : Nat),
       (build_report summarize extract_insights emails title now).urgency_stats.important +
       (build_report summarize extract_insights emails title now).urgency_stats.neededReview +
       (build_report summarize extract_insights emails title now).urgency_stats.takeYourTime =
         emails.countP (fun e => e.sentiment.isSome) ∧
       (build_report summarize extract_insights emails title now).email_count =
         emails.length) ∧
    ((build_report (fun _ => "") (fun _ => []) [emailNoSent, emailScore "e9" (9/10)]
        "t" 0).urgency_stats.important +
     (build_report (fun _ => "") (fun _ => []) [emailNoSent, emailScore "e9" (9/10)]
        "t" 0).urgency_stats.neededReview +
     (build_report (fun _ => "") (fun _ => []) [emailNoSent, emailScore "e9" (9/10)]
        "t" 0).urgency_stats.takeYourTime <
     (build_report (fun _ => "") (fun _ => []) [emailNoSent, emailScore "e9" (9/10)]
        "t" 0).email_count) := by
  constructor
  · intro summarize extract_insights emails title now
    obtain ⟨i1, i2, i3⟩ := buildUrgencyStats_counts emails (⟨0, 0, 0⟩, [])
    constructor
    · have hsum := countP_buckets emails
      have e1 : (build_report summarize extract_insights emails title now).urgency_stats.important =
          emails.countP isHigh := by simpa [build_report, buildUrgencyStats] using i1
      have e2 : (build_report summarize extract_insights emails title now).urgency_stats.neededReview =
          emails.countP isMedium := by simpa [build_report, buildUrgencyStats] using i2
      have e3 : (build_report summarize extract_insights emails title now).urgency_stats.takeYourTime =
          emails.countP isLow := by simpa [build_report, buildUrgencyStats] using i3
      rw [e1, e2, e3, hsum]
    · rfl
  · show (buildUrgencyStats _).1.important + (buildUrgencyStats _).1.neededReview +
        (buildUrgencyStats _).1.takeYourTime < ([emailNoSent, emailScore "e9" (9/10)]).length
    norm_num [emailNoSent, emailScore, buildUrgencyStats, bucketStep, List.foldl]

/-! ## Lemmas about the sheets writer -/

/-- `ensure_headers` never returns an empty sheet. -/
theorem ensure_headers_ne_nil (sheet : Sheet) : ensure_headers sheet ≠ [] := by
  unfold ensure_headers
  split <;> simp_all

/-- `ensure_headers` leaves a non-empty sheet unchanged. -/
theorem ensure_headers_of_ne_nil (sheet : Sheet) (h : sheet ≠ []) :
    ensure_headers sheet = sheet := by
  unfold ensure_headers
  simp [h]

/-- Characterization of one non-trivial `write_rows` call: headers are
ensured, exactly the rows whose `email_id` is not already present are
appended (in order), and their number is returned. -/
theorem write_rows_eq (sheet : Sheet) (rows : List SheetRow) (h : rows ≠ []) :
    write_rows sheet rows =
      (ensure_headers sheet ++
        (rows.filter (fun row =>
          !decide (row.email_id ∈ get_existing_email_ids (ensure_headers sheet)))).map
            rowToValues,
       (rows.filter (fun row =>
          !decide (row.email_id ∈ get_existing_email_ids (ensure_headers sheet)))).length) := by
  rw [write_rows, if_neg (by simpa using h)]
  dsimp only
  split
  · rename_i h2
    rw [List.isEmpty_iff] at h2
    rw [h2]
    simp
  · simp

/-- Existing-id extraction distributes over appending new value rows to a
non-empty sheet. -/
theorem existing_append (A B : Sheet) (hA : A ≠ []) :
    get_existing_email_ids (A ++ B) =
      get_existing_email_ids A ++ B.filterMap (fun row => row.head?) := by
  cases A with
  | nil => exact absurd rfl hA
  | cons a t => simp [get_existing_email_ids, List.filterMap_append]

/-- After a non-trivial `write_rows` call, every submitted `email_id` is
present in the sheet's existing-id set. -/
theorem write_ids_present (sheet : Sheet) (rows : List SheetRow) (h : rows ≠ []) :
    ∀ r ∈ rows, r.email_id ∈ get_existing_email_ids (write_rows sheet rows).1 := by
  intro r hr
  rw [write_rows_eq sheet rows h]
  rw [existing_append _ _ (ensure_headers_ne_nil sheet), List.mem_append]
  by_cases hmem : r.email_id ∈ get_existing_email_ids (ensure_headers sheet)
  · exact Or.inl hmem
  · refine Or.inr ?_
    rw [List.filterMap_map, List.mem_filterMap]
    refine ⟨r, ?_, rfl⟩
    rw [List.mem_filter]
    exact ⟨hr, by simpa using hmem⟩

/-- C9: `write_rows` filters out every row whose `email_id` is already
present in the destination and appends (and counts) only the fresh ones; in
particular, after a first call has written `r1`, a second call with `r2`
appends exactly the rows of `r2` whose ids are not yet present, reports their
number, and writes zero rows for any id overlapping with `r1`. -/
theorem write_rows_idempotent (sheet : Sheet) (r1 r2 : List SheetRow) (h1 : r1 ≠ []) :
    (write_rows (write_rows sheet r1).1 r2).1 =
      (write_rows sheet r1).1 ++
        (r2.filter (fun row =>
          !decide (row.email_id ∈ get_existing_email_ids (write_rows sheet r1).1))).map
            rowToValues ∧
    (write_rows (write_rows sheet r1).1 r2).2 =
      (r2.filter (fun row =>
        !decide (row.email_id ∈ get_existing_email_ids (write_rows sheet r1).1))).length ∧
    (∀ r ∈ r2, (∃ q ∈ r1, q.email_id = r.email_id) →
      ∀ x ∈ r2.filter (fun row =>
        !decide (row.email_id ∈ get_existing_email_ids (write_rows sheet r1).1)),
        x.email_id ≠ r.email_id) := by
  have hs1ne : (write_rows sheet r1).1 ≠ [] := by
    rw [write_rows_eq sheet r1 h1]
    simp only [ne_eq, List.append_eq_nil]
    intro hcontra
    exact ensure_headers_ne_nil sheet hcontra.1
  have hhd : ensure_headers (write_rows sheet r1).1 = (write_rows sheet r1).1 :=
    ensure_headers_of_ne_nil _ hs1ne
  refine ⟨?_, ?_, ?_⟩
  · cases hr2 : r2 with
    | nil => simp [write_rows]
    | cons b t =>
      rw [← hr2, write_rows_eq _ r2 (by rw [hr2]; simp), hhd]
  · cases hr2 : r2 with
    | nil => simp [write_rows]
    | cons b t =>
      rw [← hr2, write_rows_eq _ r2 (by rw [hr2]; simp), hhd]
  · intro r hr hover x hx hxid
    obtain ⟨q, hq, hqid⟩ := hover
    have hpresent : r.email_id ∈ get_existing_email_ids (write_rows sheet r1).1 := by
      have := write_ids_present sheet r1 h1 q hq
      rwa [hqid] at this
    rw [List.mem_filter] at hx
    have := hx.2
    rw [hxid] at this
    simp [hpresent] at this

/-- A sample sheet row with identifier `"A"`. -/
def rowA : SheetRow :=
  { email_id := "A", subject := "s", sender := "x@example.com", date := "d",
    summary := "m", processed_at := "p" }

/-- Witness for C9: writing `[rowA]` twice makes the second call a no-op that
reports zero written rows. -/
theorem write_rows_idempotent_witness :
    ([rowA] : List SheetRow) ≠ [] ∧
    (write_rows (write_rows [] [rowA]).1 [rowA]).2 = 0 ∧
    (write_rows (write_rows [] [rowA]).1 [rowA]).1 = (write_rows [] [rowA]).1 := by
  have hfilter : ([rowA].filter (fun row =>
      !decide (row.email_id ∈ get_existing_email_ids (write_rows [] [rowA]).1))) = [] := by
    rw [List.filter_eq_nil_iff]
    intro a ha
    rw [List.mem_singleton] at ha
    subst ha
    simp [write_ids_present [] [rowA] (by simp) rowA (by simp)]
  refine ⟨by simp, ?_, ?_⟩
  · rw [(write_rows_idempotent [] [rowA] [rowA] (by simp)).2.1, hfilter]
    rfl
  · rw [(write_rows_idempotent [] [rowA] [rowA] (by simp)).1, hfilter]
    simp

end AWA
